import Mathlib

/-!
Verification development for the Law-to-Code MVP (DCL + CLEARANCE engine,
`src/app.py`).  The Python core — the value caster `auto_cast`, the rule
parser `parse_rule_line` / `dcl_parse`, the evaluator `evaluate`, and the
proof builder `clearance_check` / `proof_hash` — is shallowly embedded as
executable Lean functions.  Machine-level conventions of the model:

* Python `float` values occurring in this program are represented exactly as
  rationals (plus `inf` / `-inf` / `nan`); IEEE-754 rounding and the
  scientific-notation switchover of `repr` are not modelled.  Every float
  literal the program itself parses is a short decimal, where the two agree.
* Strings are treated as sequences of Unicode code points; `str.strip`,
  `str.split()` and `str.splitlines` are modelled for the ASCII whitespace
  and line separators (space, tab, `\n`, `\r`, `\r\n`) that the rule
  language uses.
* Data records are finite key/value lists with distinct keys, standing for
  the JSON objects the API receives; per the evaluator contract the field
  values are JSON scalars or lists thereof.
-/

set_option maxRecDepth 20000

namespace LawToCode

/-- Model of a Python float as it occurs in this program: finite values are
kept exactly as rationals, plus the special values produced by
`float("inf")`, `float("-inf")` and `float("nan")`. -/
inductive PyFloat where
  | finite (q : ℚ)
  | inf (pos : Bool)
  | nan
deriving DecidableEq

/-- A Python/JSON value as handled by `auto_cast`, `evaluate` and the proof
payload: `None`, `bool`, `int`, `float`, `str` and lists. -/
inductive Val where
  | null
  | bool (b : Bool)
  | int (n : ℤ)
  | float (f : PyFloat)
  | str (s : String)
  | list (xs : List Val)

mutual

/-- Boolean structural equality on `Val` (same constructor, same payload). -/
def valBEq : Val → Val → Bool
  | .null, .null => true
  | .bool a, .bool b => a == b
  | .int a, .int b => a == b
  | .float a, .float b => a == b
  | .str a, .str b => a == b
  | .list a, .list b => valListBEq a b
  | _, _ => false

/-- `valBEq` lifted pointwise to lists. -/
def valListBEq : List Val → List Val → Bool
  | [], [] => true
  | a :: as, b :: bs => valBEq a b && valListBEq as bs
  | _, _ => false

end

mutual

/-- `valBEq` decides propositional equality on `Val`. -/
theorem valBEq_iff : ∀ a b : Val, valBEq a b = true ↔ a = b
  | .null, .null => by simp [valBEq]
  | .bool a, .bool b => by simp [valBEq]
  | .int a, .int b => by simp [valBEq]
  | .float a, .float b => by simp [valBEq]
  | .str a, .str b => by simp [valBEq]
  | .list a, .list b => by
      simp only [valBEq, Val.list.injEq]
      exact valListBEq_iff a b
  | .null, .bool _ | .null, .int _ | .null, .float _ | .null, .str _ | .null, .list _
  | .bool _, .null | .bool _, .int _ | .bool _, .float _ | .bool _, .str _ | .bool _, .list _
  | .int _, .null | .int _, .bool _ | .int _, .float _ | .int _, .str _ | .int _, .list _
  | .float _, .null | .float _, .bool _ | .float _, .int _ | .float _, .str _ | .float _, .list _
  | .str _, .null | .str _, .bool _ | .str _, .int _ | .str _, .float _ | .str _, .list _
  | .list _, .null | .list _, .bool _ | .list _, .int _ | .list _, .float _ | .list _, .str _ => by
      simp [valBEq]

/-- `valListBEq` decides propositional equality on `List Val`. -/
theorem valListBEq_iff : ∀ as bs : List Val, valListBEq as bs = true ↔ as = bs
  | [], [] => by simp [valListBEq]
  | a :: as, b :: bs => by
      simp only [valListBEq, Bool.and_eq_true, List.cons.injEq]
      exact and_congr (valBEq_iff a b) (valListBEq_iff as bs)
  | [], _ :: _ => by simp [valListBEq]
  | _ :: _, [] => by simp [valListBEq]

end

instance : DecidableEq Val := fun a b => decidable_of_iff _ (valBEq_iff a b)

/-! ### Character-list string primitives

The Python string operations the program uses (`strip`, `lower`, `split`,
`startswith`, slicing) are modelled structurally over `List Char` so that
every definition evaluates by plain reduction. -/

/-- Python `str.strip()` with no argument: remove leading and trailing
whitespace. -/
def trimChars (cs : List Char) : List Char :=
  ((cs.dropWhile Char.isWhitespace).reverse.dropWhile Char.isWhitespace).reverse

/-- ASCII lower-casing of one character (Python `str.lower` on the ASCII
identifiers and keywords this program handles). -/
def lowerChar (c : Char) : Char :=
  if 65 ≤ c.toNat && c.toNat ≤ 90 then Char.ofNat (c.toNat + 32) else c

/-- ASCII lower-casing of a string. -/
def lowerChars (cs : List Char) : List Char := cs.map lowerChar

/-- Python `str.split()` with no argument: tokens separated by runs of
whitespace, no empty tokens. -/
def splitWsAux (acc : List Char) : List Char → List String
  | [] => if acc.isEmpty then [] else [String.mk acc.reverse]
  | c :: rest =>
      if c.isWhitespace then
        if acc.isEmpty then splitWsAux [] rest
        else String.mk acc.reverse :: splitWsAux [] rest
      else splitWsAux (c :: acc) rest

/-- Python `str.split()` (see `splitWsAux`). -/
def splitWs (cs : List Char) : List String := splitWsAux [] cs

/-- Python `str.split(",")`: split at every comma, keeping empty pieces. -/
def splitCommasAux (acc : List Char) : List Char → List (List Char)
  | [] => [acc.reverse]
  | ',' :: rest => acc.reverse :: splitCommasAux [] rest
  | c :: rest => splitCommasAux (c :: acc) rest

/-- Python `str.split(",")` (see `splitCommasAux`). -/
def splitCommas (cs : List Char) : List (List Char) := splitCommasAux [] cs

/-! ### Python numeric-literal parsing (`int(str)` and `float(str)`) -/

/-- Value of a list of ASCII decimal digits. -/
def digitsToNat (cs : List Char) : ℕ :=
  cs.foldl (fun a c => 10 * a + (c.toNat - 48)) 0

/-- Walks the tail of a numeric literal keeping the previous character:
Python allows a single underscore between two digits (`int("1_0") = 10`);
any other underscore is a `ValueError`.  Returns the text with the legal
underscores removed. -/
def stripUnderscoresAux : Char → List Char → Option (List Char)
  | _, [] => some []
  | p, '_' :: c :: rest =>
      if p.isDigit && c.isDigit then (stripUnderscoresAux c rest).map (c :: ·) else none
  | _, ['_'] => none
  | _, c :: rest => (stripUnderscoresAux c rest).map (c :: ·)

/-- Validates and removes the digit-group underscores of a Python numeric
literal; fails exactly when the Python parser would reject the underscores. -/
def stripUnderscores : List Char → Option (List Char)
  | [] => some []
  | '_' :: _ => none
  | c :: rest => (stripUnderscoresAux c rest).map (c :: ·)

/-- Model of Python `int(str)`: optional surrounding whitespace, optional
sign, one or more ASCII digits with single underscores between digits. -/
def pyIntParse (s : String) : Option ℤ :=
  let t := trimChars s.toList
  let sign : ℤ := match t with
    | '-' :: _ => -1
    | _ => 1
  let body := match t with
    | '+' :: rest => rest
    | '-' :: rest => rest
    | _ => t
  match stripUnderscores body with
  | none => none
  | some ds =>
      if ds.isEmpty then none
      else if ds.all Char.isDigit then some (sign * (digitsToNat ds : ℤ)) else none

/-- Splits a numeric literal at its first `e`/`E`, if any. -/
def splitExpAux : List Char → List Char × Option (List Char)
  | [] => ([], none)
  | c :: rest =>
      if c = 'e' || c = 'E' then ([], some rest)
      else
        let p := splitExpAux rest
        (c :: p.1, p.2)

/-- Exact rational value of a decimal literal `neg? mant / 10^fracLen * 10^e`. -/
def decToRat (neg : Bool) (mant : ℕ) (fracLen : ℕ) (e : ℤ) : ℚ :=
  let net : ℤ := e - (fracLen : ℤ)
  let m : ℤ := if neg then -(mant : ℤ) else (mant : ℤ)
  if 0 ≤ net then mkRat (m * (Nat.pow 10 net.toNat : ℕ)) 1 else mkRat m (Nat.pow 10 (-net).toNat)

/-- Mantissa grammar of Python `float`: `digits [. digits]` or `. digits`
(also `digits .`), yielding the digit string and the fraction length. -/
def parseMantissa (cs : List Char) : Option (ℕ × ℕ) :=
  let ip := cs.takeWhile Char.isDigit
  let rest := cs.dropWhile Char.isDigit
  match rest with
  | [] => if ip.isEmpty then none else some (digitsToNat ip, 0)
  | '.' :: fp =>
      if fp.all Char.isDigit && !(ip.isEmpty && fp.isEmpty) then
        some (digitsToNat (ip ++ fp), fp.length)
      else none
  | _ => none

/-- Exponent grammar of Python `float`: optional sign then digits. -/
def parseExp (cs : List Char) : Option ℤ :=
  let sign : ℤ := match cs with
    | '-' :: _ => -1
    | _ => 1
  let ds := match cs with
    | '+' :: rest => rest
    | '-' :: rest => rest
    | _ => cs
  if ds.isEmpty then none
  else if ds.all Char.isDigit then some (sign * (digitsToNat ds : ℤ)) else none

/-- Model of Python `float(str)`: optional whitespace and sign, then either
`inf`/`infinity`/`nan` (case-insensitive) or a decimal literal with optional
fraction and exponent; digit-group underscores as in `int(str)`.  The finite
result is the exact rational value of the literal. -/
def pyFloatParse (s : String) : Option PyFloat :=
  let t := trimChars s.toList
  let pos : Bool := match t with
    | '-' :: _ => false
    | _ => true
  let body := match t with
    | '+' :: rest => rest
    | '-' :: rest => rest
    | _ => t
  let low := String.mk (lowerChars body)
  if low = "inf" || low = "infinity" then some (.inf pos)
  else if low = "nan" then some .nan
  else
    match stripUnderscores body with
    | none => none
    | some cs =>
        let p := splitExpAux cs
        match parseMantissa p.1, p.2 with
        | some mf, none => some (.finite (decToRat (!pos) mf.1 mf.2 0))
        | some mf, some es =>
            match parseExp es with
            | some e => some (.finite (decToRat (!pos) mf.1 mf.2 e))
            | none => none
        | none, _ => none

/-! ### The value caster `auto_cast` (src/app.py, lines 116–137) -/

/-- Model of `auto_cast`: strip, then try in order boolean literal, `int`,
`float`, matching single/double quote unwrap, raw-string fallback. -/
def auto_cast (txt : String) : Val :=
  let tc := trimChars txt.toList
  let t := String.mk tc
  let low := String.mk (lowerChars tc)
  if low = "true" || low = "false" then .bool (low = "true")
  else
    match pyIntParse t with
    | some n => .int n
    | none =>
        match pyFloatParse t with
        | some f => .float f
        | none =>
            let quoted := fun (q : Char) =>
              match tc with
              | c :: _ => c = q && tc.getLast? = some q
              | [] => false
            if quoted '\x27' || quoted '\x22' then .str (String.mk (tc.drop 1).dropLast)
            else .str t

/-! ### The DCL rule parser (src/app.py, lines 140–193 and 267–281) -/

/-- A compiled DCL rule (the pydantic model `DCLRule`): `value` defaults to
Python `None` when absent. -/
structure DCLRule where
  id : String
  type : String
  field : String
  value : Val := .null
deriving DecidableEq

/-- A compiled DCL schema (the pydantic model `DCLSchema`); the
`generated_at` creation timestamp is passed in explicitly. -/
structure DCLSchema where
  law_title : String := "Untitled Law Snippet"
  rules : List DCLRule
  source_text : String
  generated_at : String
deriving DecidableEq

/-- Index of the first occurrence of `c` (the list is known to contain it). -/
def firstIdxOf (cs : List Char) (c : Char) : ℕ :=
  match cs with
  | [] => 0
  | x :: xs => if x = c then 0 else firstIdxOf xs c + 1

/-- Index of the last occurrence of `c`, like Python `str.rfind`. -/
def lastIdxOf (cs : List Char) (c : Char) : ℕ :=
  cs.length - 1 - firstIdxOf cs.reverse c

/-- Python `str.strip("[]")`: remove every leading and trailing `[` or `]`. -/
def stripBracketChars (cs : List Char) : List Char :=
  let isB := fun c => c = '[' || c = ']'
  ((cs.dropWhile isB).reverse.dropWhile isB).reverse

/-- The value of an `in` rule: everything between the first `[` and the last
`]` of the line, comma-split, trimmed, empties dropped, each item cast; with
no brackets, the raw tokens after the field (left as strings). -/
def inValue (raw : String) (parts : List String) : Val :=
  let cs := raw.toList
  if cs.contains '[' && cs.contains ']' then
    let i := firstIdxOf cs '['
    let j := lastIdxOf cs ']'
    let bracket := (cs.drop i).take (j + 1 - i)
    let inner := stripBracketChars bracket
    let items := ((splitCommas inner).map trimChars).filter (· ≠ [])
    .list (items.map (fun x => auto_cast (String.mk x)))
  else
    .list ((parts.drop 2).map Val.str)

/-- Model of `parse_rule_line`: trim; skip blank and `#` lines and lines with
fewer than two whitespace-separated tokens; dispatch on the lower-cased
keyword; the rule id is `"r"` followed by the 1-based line number `idx`. -/
def parse_rule_line (line : String) (idx : ℕ) : Option DCLRule :=
  let rawc := trimChars line.toList
  let raw := String.mk rawc
  if raw = "" || (match rawc with | '#' :: _ => true | _ => false) then none
  else
    let parts := splitWs rawc
    if parts.length < 2 then none
    else
      let keyword := String.mk (lowerChars (parts.headD "").toList)
      let field := parts.getD 1 ""
      if keyword = "require" then
        some { id := "r" ++ toString idx, type := "required", field := field }
      else if keyword = "equals" && decide (3 ≤ parts.length) then
        some { id := "r" ++ toString idx, type := "equals", field := field,
               value := auto_cast (String.intercalate " " (parts.drop 2)) }
      else if keyword = "max" && decide (3 ≤ parts.length) then
        some { id := "r" ++ toString idx, type := "max", field := field,
               value := auto_cast (parts.getD 2 "") }
      else if keyword = "min" && decide (3 ≤ parts.length) then
        some { id := "r" ++ toString idx, type := "min", field := field,
               value := auto_cast (parts.getD 2 "") }
      else if keyword = "in" && decide (3 ≤ parts.length) then
        some { id := "r" ++ toString idx, type := "in", field := field,
               value := inValue raw parts }
      else none

/-- Model of Python `str.splitlines` for the `\n`, `\r\n` and `\r` line
separators (no trailing empty line; empty string gives no lines). -/
def splitlinesAux (acc : List Char) : List Char → List String
  | [] => if acc.isEmpty then [] else [String.mk acc.reverse]
  | '\r' :: '\n' :: rest => String.mk acc.reverse :: splitlinesAux [] rest
  | '\r' :: rest => String.mk acc.reverse :: splitlinesAux [] rest
  | '\n' :: rest => String.mk acc.reverse :: splitlinesAux [] rest
  | c :: rest => splitlinesAux (c :: acc) rest

/-- Python `str.splitlines` (see `splitlinesAux`). -/
def splitlines (s : String) : List String := splitlinesAux [] s.toList

/-- Pairs each element with its position, counting from `n` (the Python
`enumerate(lines, start=1)` of `dcl_parse`). -/
def enumFrom {α : Type} (n : ℕ) : List α → List (ℕ × α)
  | [] => []
  | x :: xs => (n, x) :: enumFrom (n + 1) xs

/-- The parse loop of `dcl_parse`: append each successfully parsed rule. -/
def dclParseLoop (rules : List DCLRule) : List (ℕ × String) → List DCLRule
  | [] => rules
  | p :: rest =>
      match parse_rule_line p.2 p.1 with
      | some r => dclParseLoop (rules ++ [r]) rest
      | none => dclParseLoop rules rest

/-- Model of the `/dcl/parse` handler `dcl_parse`: split the law text into
lines, parse each with its 1-based line number, and wrap the rules in a
schema.  `law_title or "Law Snippet"` treats both `None` and the empty
string as absent; the `generated_at` timestamp is passed in explicitly. -/
def dcl_parse (law_text : String) (law_title : Option String) (now : String) : DCLSchema :=
  { law_title :=
      match law_title with
      | some t => if t = "" then "Law Snippet" else t
      | none => "Law Snippet"
    rules := dclParseLoop [] (enumFrom 1 (splitlines law_text))
    source_text := law_text
    generated_at := now }

/-! ### Python equality, float coercion and string rendering -/

/-- The numeric content of a value, if any: Python compares `bool`, `int`
and `float` by numeric value (`True == 1 == 1.0`). -/
def numVal : Val → Option PyFloat
  | .bool b => some (.finite (mkRat (if b then 1 else 0) 1))
  | .int n => some (.finite (mkRat n 1))
  | .float f => some f
  | _ => none

/-- Python `==` on floats: exact on finite values, `nan` equal to nothing. -/
def pyFloatEq : PyFloat → PyFloat → Bool
  | .finite a, .finite b => a == b
  | .inf a, .inf b => a == b
  | _, _ => false

/-- Python `<=` on floats: any comparison with `nan` is false. -/
def pyFloatLe : PyFloat → PyFloat → Bool
  | .nan, _ => false
  | _, .nan => false
  | .inf false, _ => true
  | _, .inf true => true
  | .inf true, _ => false
  | _, .inf false => false
  | .finite a, .finite b => !(Rat.blt b a)

mutual

/-- Model of Python `==` on the values of this program: numeric kinds (`bool`,
`int`, `float`) compare by numeric value, strings compare to strings only
(no coercion from `"5"` to `5`), `None` equals only `None`, lists compare
pointwise. -/
def pyEq : Val → Val → Bool
  | .null, .null => true
  | .str s, .str t => s == t
  | .list xs, .list ys => pyEqList xs ys
  | a, b =>
      match numVal a, numVal b with
      | some x, some y => pyFloatEq x y
      | _, _ => false

/-- `pyEq` lifted pointwise to lists (Python list equality). -/
def pyEqList : List Val → List Val → Bool
  | [], [] => true
  | x :: xs, y :: ys => pyEq x y && pyEqList xs ys
  | _, _ => false

end

/-- Model of Python `float(x)` on the values of this program: numbers and booleans
coerce, strings are parsed, `None` and lists raise (`none`). -/
def pyFloatOfVal : Val → Option PyFloat
  | .null => none
  | .bool b => some (.finite (mkRat (if b then 1 else 0) 1))
  | .int n => some (.finite (mkRat n 1))
  | .float f => some f
  | .str s => pyFloatParse s
  | .list _ => none

/-- Decimal rendering of a finite float whose reduced denominator divides a
power of ten — the shape of every float literal this program parses; on it
this agrees with Python `repr`.  (Shortest-roundtrip rounding and the
scientific notation `repr` uses for extreme magnitudes are not modelled.) -/
def finiteRepr (q : ℚ) : String :=
  let sign := if Rat.blt q (mkRat 0 1) then "-" else ""
  let n := q.num.natAbs
  let d := q.den
  if d = 1 then sign ++ toString n ++ ".0"
  else
    match (List.range 41).find? (fun k => Nat.pow 10 k % d == 0) with
    | some k =>
        let scaled := n * Nat.pow 10 k / d
        let ipart := scaled / Nat.pow 10 k
        let fpart := toString (scaled % Nat.pow 10 k)
        let fdigits := String.mk (List.replicate (k - fpart.length) '0') ++ fpart
        sign ++ toString ipart ++ "." ++ fdigits
    | none => sign ++ toString n ++ "/" ++ toString d

/-- Python `repr` of a float. -/
def floatRepr : PyFloat → String
  | .finite q => finiteRepr q
  | .inf pos => if pos then "inf" else "-inf"
  | .nan => "nan"

mutual

/-- Model of Python `repr` on the values of this program, as used by the `!r`
format conversions in the detail strings of the evaluator.  String escaping
beyond wrapping in single quotes is not modelled (the strings this program
reprs are plain ASCII identifiers and literals). -/
def pyRepr : Val → String
  | .null => "None"
  | .bool b => if b then "True" else "False"
  | .int n => toString n
  | .float f => floatRepr f
  | .str s => "\x27" ++ s ++ "\x27"
  | .list xs => "[" ++ String.intercalate ", " (pyReprList xs) ++ "]"

/-- `pyRepr` mapped over a list. -/
def pyReprList : List Val → List String
  | [] => []
  | x :: xs => pyRepr x :: pyReprList xs

end

/-- Model of Python `str(x)` (the plain `{...}` format conversions): like
`repr` except strings are rendered without quotes. -/
def pyStr : Val → String
  | .str s => s
  | v => pyRepr v

/-! ### The CLEARANCE evaluator (src/app.py, lines 199–249) -/

/-- A per-rule evaluation outcome (the pydantic model `ClearanceResult`). -/
structure ClearanceResult where
  rule_id : String
  field : String
  passed : Bool
  details : String
deriving DecidableEq

/-- A data record: the JSON object posted to `/clearance/check`, as a
key/value list with distinct keys. -/
abbrev DataRec := List (String × Val)

/-- One iteration of the evaluator loop: dispatch on `rule.type` exactly as
the `if`/`elif` chain does, producing the result record with its rendered
detail string.  `field_value` is `data.get(rule.field, None)`. -/
def evalRule (data : DataRec) (rule : DCLRule) : ClearanceResult :=
  let field_value := (data.lookup rule.field).getD .null
  if rule.type = "required" then
    let passed :=
      match data.lookup rule.field with
      | none => false
      | some v => !(pyEq v .null) && !(pyEq v (.str ""))
    { rule_id := rule.id, field := rule.field, passed := passed,
      details := "Field \x27" ++ rule.field ++ "\x27 is required; present="
        ++ (if passed then "True" else "False") }
  else if rule.type = "equals" then
    { rule_id := rule.id, field := rule.field, passed := pyEq field_value rule.value,
      details := "Field \x27" ++ rule.field ++ "\x27 must equal " ++ pyRepr rule.value
        ++ "; actual=" ++ pyRepr field_value }
  else if rule.type = "max" then
    let passed :=
      match pyFloatOfVal field_value, pyFloatOfVal rule.value with
      | some a, some b => pyFloatLe a b
      | _, _ => false
    { rule_id := rule.id, field := rule.field, passed := passed,
      details := "Field \x27" ++ rule.field ++ "\x27 must be <= " ++ pyStr rule.value
        ++ "; actual=" ++ pyStr field_value }
  else if rule.type = "min" then
    let passed :=
      match pyFloatOfVal field_value, pyFloatOfVal rule.value with
      | some a, some b => pyFloatLe b a
      | _, _ => false
    { rule_id := rule.id, field := rule.field, passed := passed,
      details := "Field \x27" ++ rule.field ++ "\x27 must be >= " ++ pyStr rule.value
        ++ "; actual=" ++ pyStr field_value }
  else if rule.type = "in" then
    let options := match rule.value with | .list xs => xs | _ => []
    { rule_id := rule.id, field := rule.field,
      passed := options.any (fun o => pyEq o field_value),
      details := "Field \x27" ++ rule.field ++ "\x27 must be in " ++ pyStr (.list options)
        ++ "; actual=" ++ pyStr field_value }
  else
    { rule_id := rule.id, field := rule.field, passed := false,
      details := "Unknown rule type: " ++ rule.type }

/-- The `for` loop of the evaluator: results are appended in rule order and
`overall` is cleared whenever a rule fails. -/
def evaluateLoop (data : DataRec) (acc : List ClearanceResult) (overall : Bool) :
    List DCLRule → List ClearanceResult × Bool
  | [] => (acc, overall)
  | r :: rest =>
      let res := evalRule data r
      evaluateLoop data (acc ++ [res]) (overall && res.passed) rest

/-- Model of `evaluate`: all rules of the schema in order, starting from an
empty result list and `overall = True`. -/
def evaluate (schema : DCLSchema) (data : DataRec) : List ClearanceResult × Bool :=
  evaluateLoop data [] true schema.rules

/-! ### Canonical JSON serialization (`json.dumps(payload, sort_keys=True,
separators=(",", ":"))` in `proof_hash` / `clearance_check`) -/

/-- Lowercase hex digit. -/
def hexDigit (n : ℕ) : Char :=
  if n < 10 then Char.ofNat (48 + n) else Char.ofNat (87 + n)

/-- Four lowercase hex digits, as in a JSON `\uXXXX` escape. -/
def hex4 (n : ℕ) : String :=
  String.mk ((List.range 4).map (fun i => hexDigit (n / Nat.pow 16 (3 - i) % 16)))

/-- JSON string escaping as `json.dumps` does with its default
`ensure_ascii=True`: named escapes for quote, backslash and the common
control characters, `\uXXXX` for the rest outside printable ASCII
(surrogate pairs beyond the BMP). -/
def jsonEscapeChar (c : Char) : String :=
  if c = '\x22' then "\x5c\x22"
  else if c = '\x5c' then "\x5c\x5c"
  else if c = '\x08' then "\x5cb"
  else if c = '\x0c' then "\x5cf"
  else if c = '\n' then "\x5cn"
  else if c = '\r' then "\x5cr"
  else if c = '\t' then "\x5ct"
  else if c.toNat < 32 || c.toNat > 126 then
    if c.toNat ≤ 65535 then "\x5cu" ++ hex4 c.toNat
    else
      let cp := c.toNat - 65536
      "\x5cu" ++ hex4 (55296 + cp / 1024) ++ "\x5cu" ++ hex4 (56320 + cp % 1024)
  else String.mk [c]

/-- A JSON string literal with its quotes. -/
def jsonStr (s : String) : String :=
  "\x22" ++ String.join (s.toList.map jsonEscapeChar) ++ "\x22"

/-- JSON rendering of a float (`json.dumps` uses `repr`, with `Infinity` and
`NaN` for the non-finite values). -/
def jsonFloat : PyFloat → String
  | .finite q => finiteRepr q
  | .inf pos => if pos then "Infinity" else "-Infinity"
  | .nan => "NaN"

mutual

/-- Compact JSON rendering of a value, matching
`json.dumps(v, separators=(",", ":"))`. -/
def jsonVal : Val → String
  | .null => "null"
  | .bool b => if b then "true" else "false"
  | .int n => toString n
  | .float f => jsonFloat f
  | .str s => jsonStr s
  | .list xs => "[" ++ String.intercalate "," (jsonValList xs) ++ "]"

/-- `jsonVal` mapped over a list. -/
def jsonValList : List Val → List String
  | [] => []
  | x :: xs => jsonVal x :: jsonValList xs

end

/-- Strict string order by code points (Python string `<`). -/
def strLtB : List Char → List Char → Bool
  | [], [] => false
  | [], _ :: _ => true
  | _ :: _, [] => false
  | a :: as, b :: bs =>
      Nat.blt a.toNat b.toNat || (a.toNat == b.toNat && strLtB as bs)

/-- String order by code points, as Python compares the keys under
`sort_keys=True`. -/
def strLe (a b : String) : Bool := !(strLtB b.toList a.toList)

/-- Insertion into a key-sorted association list of rendered values. -/
def insertSorted (p : String × String) : List (String × String) → List (String × String)
  | [] => [p]
  | q :: rest => if strLe p.1 q.1 then p :: q :: rest else q :: insertSorted p rest

/-- Insertion sort of rendered key/value pairs by key. -/
def sortByKey : List (String × String) → List (String × String)
  | [] => []
  | p :: rest => insertSorted p (sortByKey rest)

/-- A JSON object with sorted keys and compact separators; the values are
already rendered. -/
def jsonObj (pairs : List (String × String)) : String :=
  "\x7b" ++ String.intercalate ","
      ((sortByKey pairs).map (fun p => jsonStr p.1 ++ ":" ++ p.2)) ++ "\x7d"

/-- The `data_checked` member of the payload: the posted JSON object. -/
def jsonOfData (data : DataRec) : String :=
  jsonObj (data.map (fun p => (p.1, jsonVal p.2)))

/-- One rule as produced by `schema.model_dump_json()` then re-dumped with
sorted keys. -/
def jsonOfRule (r : DCLRule) : String :=
  jsonObj [("id", jsonStr r.id), ("type", jsonStr r.type),
           ("field", jsonStr r.field), ("value", jsonVal r.value)]

/-- The schema as it appears inside the hashed payload. -/
def jsonOfSchema (s : DCLSchema) : String :=
  jsonObj [("law_title", jsonStr s.law_title),
           ("rules", "[" ++ String.intercalate "," (s.rules.map jsonOfRule) ++ "]"),
           ("source_text", jsonStr s.source_text),
           ("generated_at", jsonStr s.generated_at)]

/-- One result as produced by `r.model_dump()` then dumped with sorted keys. -/
def jsonOfResult (r : ClearanceResult) : String :=
  jsonObj [("rule_id", jsonStr r.rule_id), ("field", jsonStr r.field),
           ("passed", if r.passed then "true" else "false"),
           ("details", jsonStr r.details)]

/-- The canonical payload `clearance_check` hashes: note that the live
`generated_at` timestamp (`datetime.now(timezone.utc).isoformat()`, here the
explicit argument `now`) is one of its members. -/
def canonicalPayload (schema : DCLSchema) (data : DataRec)
    (results : List ClearanceResult) (overall : Bool) (now : String) : String :=
  jsonObj
    [("law_title", jsonStr schema.law_title),
     ("schema", jsonOfSchema schema),
     ("data_checked", jsonOfData data),
     ("results", "[" ++ String.intercalate "," (results.map jsonOfResult) ++ "]"),
     ("overall_passed", if overall then "true" else "false"),
     ("generated_at", jsonStr now)]

/-! ### SHA-256 (the digest of `proof_hash`), over naturals mod 2^32 -/

/-- Truncation to a 32-bit word. -/
def u32 (n : ℕ) : ℕ := n % 4294967296

/-- Right rotation of a 32-bit word. -/
def rotr32 (x n : ℕ) : ℕ := (x >>> n) + u32 ((x % Nat.pow 2 n) <<< (32 - n))

/-- UTF-8 encoding of one code point. -/
def encodeChar (c : Char) : List ℕ :=
  let n := c.toNat
  if n < 128 then [n]
  else if n < 2048 then [192 + n / 64, 128 + n % 64]
  else if n < 65536 then [224 + n / 4096, 128 + n / 64 % 64, 128 + n % 64]
  else [240 + n / 262144, 128 + n / 4096 % 64, 128 + n / 64 % 64, 128 + n % 64]

/-- UTF-8 bytes of a string (`.encode("utf-8")`). -/
def utf8Bytes (s : String) : List ℕ := (s.toList.map encodeChar).flatten

/-- Big-endian bytes of a value, fixed width. -/
def toBytesBE (nbytes val : ℕ) : List ℕ :=
  (List.range nbytes).map (fun i => val / Nat.pow 256 (nbytes - 1 - i) % 256)

/-- SHA-256 message padding: `0x80`, zeros to 56 mod 64, 8-byte bit length. -/
def shaPad (bytes : List ℕ) : List ℕ :=
  let len := bytes.length
  bytes ++ [128] ++ List.replicate ((119 - len % 64) % 64) 0 ++ toBytesBE 8 (len * 8)

/-- Groups a byte list into 32-bit big-endian words. -/
def toWordsBE : List ℕ → List ℕ
  | b0 :: b1 :: b2 :: b3 :: rest =>
      (((b0 * 256 + b1) * 256 + b2) * 256 + b3) :: toWordsBE rest
  | _ => []

/-- Groups bytes into 64-byte blocks; the fuel argument (at least the list
length) keeps the recursion structural. -/
def chunk64Go : ℕ → List ℕ → List (List ℕ)
  | _, [] => []
  | 0, l => [l]
  | fuel + 1, b :: rest => ((b :: rest).take 64) :: chunk64Go fuel (rest.drop 63)

/-- Groups bytes into 64-byte blocks. -/
def chunk64 (bytes : List ℕ) : List (List ℕ) := chunk64Go bytes.length bytes

/-- SHA-256 small sigma 0. -/
def smallSigma0 (x : ℕ) : ℕ := (rotr32 x 7) ^^^ (rotr32 x 18) ^^^ (x >>> 3)

/-- SHA-256 small sigma 1. -/
def smallSigma1 (x : ℕ) : ℕ := (rotr32 x 17) ^^^ (rotr32 x 19) ^^^ (x >>> 10)

/-- SHA-256 big sigma 0. -/
def bigSigma0 (x : ℕ) : ℕ := (rotr32 x 2) ^^^ (rotr32 x 13) ^^^ (rotr32 x 22)

/-- SHA-256 big sigma 1. -/
def bigSigma1 (x : ℕ) : ℕ := (rotr32 x 6) ^^^ (rotr32 x 11) ^^^ (rotr32 x 25)

/-- SHA-256 choice function. -/
def shaCh (x y z : ℕ) : ℕ := (x &&& y) ^^^ ((x ^^^ 4294967295) &&& z)

/-- SHA-256 majority function. -/
def shaMaj (x y z : ℕ) : ℕ := (x &&& y) ^^^ (x &&& z) ^^^ (y &&& z)

/-- Extends the 16 message-schedule words by `fuel` more. -/
def extendW (w : List ℕ) : ℕ → List ℕ
  | 0 => w
  | fuel + 1 =>
      let i := w.length
      let wi := u32 (smallSigma1 (w.getD (i - 2) 0) + w.getD (i - 7) 0
        + smallSigma0 (w.getD (i - 15) 0) + w.getD (i - 16) 0)
      extendW (w ++ [wi]) fuel

/-- The SHA-256 round constants. -/
def shaK : List ℕ :=
  [1116352408, 1899447441, 3049323471, 3921009573, 961987163, 1508970993,
   2453635748, 2870763221, 3624381080, 310598401, 607225278, 1426881987,
   1925078388, 2162078206, 2614888103, 3248222580, 3835390401, 4022224774,
   264347078, 604807628, 770255983, 1249150122, 1555081692, 1996064986,
   2554220882, 2821834349, 2952996808, 3210313671, 3336571891, 3584528711,
   113926993, 338241895, 666307205, 773529912, 1294757372, 1396182291,
   1695183700, 1986661051, 2177026350, 2456956037, 2730485921, 2820302411,
   3259730800, 3345764771, 3516065817, 3600352804, 4094571909, 275423344,
   430227734, 506948616, 659060556, 883997877, 958139571, 1322822218,
   1537002063, 1747873779, 1955562222, 2024104815, 2227730452, 2361852424,
   2428436474, 2756734187, 3204031479, 3329325298]

/-- The SHA-256 initial hash state. -/
def shaH0 : List ℕ :=
  [1779033703, 3144134277, 1013904242, 2773480762,
   1359893119, 2600822924, 528734635, 1541459225]

/-- One SHA-256 compression round on the eight-word state. -/
def compressRound (st : List ℕ) (kw : ℕ × ℕ) : List ℕ :=
  match st with
  | [a, b, c, d, e, f, g, h] =>
      let t1 := u32 (h + bigSigma1 e + shaCh e f g + kw.1 + kw.2)
      let t2 := u32 (bigSigma0 a + shaMaj a b c)
      [u32 (t1 + t2), a, b, c, u32 (d + t1), e, f, g]
  | _ => st

/-- SHA-256 compression of one 64-byte block into the running state. -/
def compressBlock (h : List ℕ) (block : List ℕ) : List ℕ :=
  let w := extendW (toWordsBE block) 48
  let st := (shaK.zip w).foldl compressRound h
  (h.zip st).map (fun p => u32 (p.1 + p.2))

/-- The eight SHA-256 state words of a byte message. -/
def sha256Words (bytes : List ℕ) : List ℕ :=
  (chunk64 (shaPad bytes)).foldl compressBlock shaH0

/-- One 32-bit word as eight lowercase hex digits. -/
def hex8 (n : ℕ) : String :=
  String.mk ((List.range 8).map (fun i => hexDigit (n / Nat.pow 16 (7 - i) % 16)))

/-- SHA-256 of a byte message, as lowercase hex. -/
def sha256Hex (bytes : List ℕ) : String :=
  String.join ((sha256Words bytes).map hex8)

/-- Model of `proof_hash` (src/app.py, lines 252–256): SHA-256 over the
UTF-8 bytes of the canonical JSON serialization, rendered as hex. -/
def proof_hash (canonical : String) : String := sha256Hex (utf8Bytes canonical)

/-! ### The proof builder `clearance_check` (src/app.py, lines 289–311) -/

/-- The durable proof record (the pydantic model `ProofLog`). -/
structure ProofLog where
  law_title : String
  schema : DCLSchema
  data_checked : DataRec
  results : List ClearanceResult
  overall_passed : Bool
  generated_at : String
  proof_hash : String
deriving DecidableEq

/-- Model of the `/clearance/check` handler: evaluate, build the canonical
payload (which includes the live timestamp), hash it, and wrap everything in
a `ProofLog`.  The two `datetime.now(timezone.utc)` calls — one for the
hashed payload, one for the returned record — are modelled by the single
`now` argument. -/
def clearance_check (schema : DCLSchema) (data : DataRec) (now : String) : ProofLog :=
  let re := evaluate schema data
  { law_title := schema.law_title
    schema := schema
    data_checked := data
    results := re.1
    overall_passed := re.2
    generated_at := now
    proof_hash := proof_hash (canonicalPayload schema data re.1 re.2 now) }

/-! ### The Proof Store -/

/-- Modelled from the spec: the Proof Store of §4.5 is an external
collaborator with no implementation under `src/` (the handler only returns
the proof); the spec fixes its contract — `save(proof) -> id` appends and
assigns a unique identifier, `get(id)` retrieves, `list(limit, offset)`
slices in most-recent-first order with the total count.  Proofs are kept in
insertion order; the id of a proof is its 1-based insertion index. -/
abbrev ProofStore := List ProofLog

/-- Modelled from the spec: `save(proof) -> id`, append-only. -/
def store_save (st : ProofStore) (p : ProofLog) : ProofStore × ℕ :=
  (st ++ [p], st.length + 1)

/-- Modelled from the spec: `get(id) -> Proof or NotFound`. -/
def store_get (st : ProofStore) (i : ℕ) : Option ProofLog :=
  if i = 0 then none else st.get? (i - 1)

/-- Modelled from the spec: `list(limit, offset)` returns the
most-recent-first slice and the total count. -/
def store_list (st : ProofStore) (limit offset : ℕ) : List ProofLog × ℕ :=
  ((st.reverse.drop offset).take limit, st.length)

/-- A sequence of further saves (the append-only lifetime of the store). -/
def store_saveAll (st : ProofStore) (ps : List ProofLog) : ProofStore :=
  ps.foldl (fun s p => (store_save s p).1) st

/-! ### Helper lemmas -/

/-- The parse loop accumulates exactly the successfully parsed lines. -/
theorem dclParseLoop_eq (l : List (ℕ × String)) :
    ∀ acc, dclParseLoop acc l = acc ++ l.filterMap (fun p => parse_rule_line p.2 p.1) := by
  induction l with
  | nil => intro acc; simp [dclParseLoop]
  | cons p rest ih =>
      intro acc
      rw [dclParseLoop]
      cases h : parse_rule_line p.2 p.1 with
      | none => simp [h, ih]
      | some r => simp [h, ih]

/-- The evaluator loop produces the mapped results and the conjunction of
their `passed` flags. -/
theorem evaluateLoop_eq (data : DataRec) (rules : List DCLRule) :
    ∀ acc overall, evaluateLoop data acc overall rules
      = (acc ++ rules.map (evalRule data),
         overall && (rules.map (evalRule data)).all (fun r => r.passed)) := by
  induction rules with
  | nil => intro acc overall; simp [evaluateLoop]
  | cons r rest ih =>
      intro acc overall
      rw [evaluateLoop, ih]
      simp [Bool.and_assoc]

/-- Appending saves one by one appends the list of proofs. -/
theorem store_saveAll_eq (ps : List ProofLog) :
    ∀ st, store_saveAll st ps = st ++ ps := by
  induction ps with
  | nil => intro st; simp [store_saveAll]
  | cons p rest ih =>
      intro st
      show store_saveAll (st ++ [p]) rest = st ++ p :: rest
      rw [ih]
      simp

/-- The `required` branch of `evalRule`, unfolded. -/
theorem evalRule_required (i f : String) (v : Val) (data : DataRec) :
    (evalRule data { id := i, type := "required", field := f, value := v }).passed
      = (match data.lookup f with
         | none => false
         | some w => !(pyEq w .null) && !(pyEq w (.str ""))) := rfl

/-- The `equals` branch of `evalRule`, unfolded. -/
theorem evalRule_equals (i f : String) (v : Val) (data : DataRec) :
    (evalRule data { id := i, type := "equals", field := f, value := v }).passed
      = pyEq ((data.lookup f).getD .null) v := rfl

/-- The `max` branch of `evalRule`, unfolded. -/
theorem evalRule_max (i f : String) (v : Val) (data : DataRec) :
    (evalRule data { id := i, type := "max", field := f, value := v }).passed
      = (match pyFloatOfVal ((data.lookup f).getD .null), pyFloatOfVal v with
         | some a, some b => pyFloatLe a b
         | _, _ => false) := rfl

/-- The `min` branch of `evalRule`, unfolded. -/
theorem evalRule_min (i f : String) (v : Val) (data : DataRec) :
    (evalRule data { id := i, type := "min", field := f, value := v }).passed
      = (match pyFloatOfVal ((data.lookup f).getD .null), pyFloatOfVal v with
         | some a, some b => pyFloatLe b a
         | _, _ => false) := rfl

/-- A value compares `==`-equal to `None` exactly when it is `None`. -/
theorem pyEq_null_iff (w : Val) : pyEq w .null = true ↔ w = .null := by
  cases w <;> simp [pyEq, numVal]

/-- A value compares `==`-equal to `""` exactly when it is the string `""`. -/
theorem pyEq_emptyStr_iff (w : Val) : pyEq w (.str "") = true ↔ w = .str "" := by
  cases w <;> simp [pyEq, numVal]

/-! ### The claims -/

/-- A fixed schema for the hash-reproducibility check. -/
def c1Schema : DCLSchema :=
  { law_title := "L", rules := [], source_text := "s", generated_at := "0" }

/-- C1: the claim fails on the code.  `clearance_check` places the live
`generated_at` timestamp inside the hashed payload (src/app.py line 299),
so building the proof twice over identical (rule, data) inputs at two
different times yields different canonical payloads and different
`proof_hash` digests; the digest is not reproducible. -/
theorem c1_hash_includes_timestamp :
    (∀ schema data now, (clearance_check schema data now).proof_hash
        = proof_hash (canonicalPayload schema data
            (evaluate schema data).1 (evaluate schema data).2 now)) ∧
    canonicalPayload c1Schema [] [] true "1" ≠ canonicalPayload c1Schema [] [] true "2" ∧
    (clearance_check c1Schema [] "1").proof_hash ≠ (clearance_check c1Schema [] "2").proof_hash := by
  refine ⟨?_, by decide, by decide⟩
  intro schema data now
  simp only [clearance_check]

/-- C2: one proof per clearance check, built directly from the evaluation
output; in the spec-modelled store a saved proof is returned unchanged by
`get` under its assigned id, remains retrievable and unchanged after any
number of further appends, and the recency-ordered listing starts with the
most recent save. -/
theorem c2_proof_lifecycle :
    (∀ schema data now,
        (clearance_check schema data now).results = (evaluate schema data).1 ∧
        (clearance_check schema data now).overall_passed = (evaluate schema data).2) ∧
    (∀ st p, store_get (store_save st p).1 (store_save st p).2 = some p) ∧
    (∀ st p ps, store_get (store_saveAll (store_save st p).1 ps) (store_save st p).2 = some p) ∧
    (∀ st p, (store_list (store_save st p).1 (st.length + 1) 0).1 = p :: st.reverse) := by
  refine ⟨fun _ _ _ => ⟨rfl, rfl⟩, ?_, ?_, ?_⟩
  · intro st p
    simp [store_get, store_save, List.getElem?_concat_length]
  · intro st p ps
    simp only [store_save, store_saveAll_eq, store_get, List.append_assoc]
    rw [if_neg (Nat.succ_ne_zero st.length), Nat.add_sub_cancel, List.get?_eq_getElem?,
        List.getElem?_append_right (Nat.le_refl st.length)]
    simp
  · intro st p
    simp only [store_list, store_save, List.reverse_append, List.reverse_cons,
      List.reverse_nil, List.nil_append, List.singleton_append, List.drop_zero]
    rw [List.take_of_length_le]
    simp

/-- Strict same-type-and-value equality in the wording of the spec and of C3
("exactly equal (same type and value)"), as a predicate, for comparison
with what the evaluator actually does. -/
def specStrictEq (a b : Val) : Bool := a == b

/-- The schema compiled from `equals x 5.0` — an equals rule whose scalar is
the float `5.0`. -/
def c3Schema : DCLSchema :=
  { law_title := "L",
    rules := [{ id := "r1", type := "equals", field := "x",
                value := .float (.finite (mkRat 5 1)) }],
    source_text := "equals x 5.0", generated_at := "0" }

/-- C3 counterexample: the claim is false at a concrete input.  With an
`equals` rule whose scalar is the float `5.0` and a data record holding the
int `5`, the evaluator passes, although int `5` and float `5.0` are not of
the same type — Python `==` compares numeric values across `bool`/`int`/
`float`, so equality is not the claimed same-type-and-value equality. -/
theorem c3_counterexample :
    ((evaluate c3Schema [("x", .int 5)]).1.map (fun r => r.passed) = [true]) ∧
    specStrictEq (.int 5) (.float (.finite (mkRat 5 1))) = false :=
  ⟨by decide, by decide⟩

/-- C3 amended: an `equals` rule passes iff `data[field]` equals the rule
scalar under Python `==`: strings never compare equal to numbers (so an
int-`5` rule does not pass for the string `"5"`, in either direction), but
numerically equal values of different numeric kinds do compare equal (int
`5` equals float `5.0`). -/
theorem c3_equals_python_equality :
    (∀ i f v data, (evalRule data { id := i, type := "equals", field := f, value := v }).passed
        = pyEq ((data.lookup f).getD .null) v) ∧
    (∀ s n, pyEq (.str s) (.int n) = false) ∧
    (∀ s n, pyEq (.int n) (.str s) = false) ∧
    ((evalRule [("x", .str "5")]
        { id := "r1", type := "equals", field := "x", value := .int 5 }).passed = false) ∧
    pyEq (.int 5) (.float (.finite (mkRat 5 1))) = true :=
  ⟨fun i f v data => evalRule_equals i f v data,
   fun _ _ => rfl, fun _ _ => rfl, by decide, by decide⟩

/-- C4 counterexample: the claim is false at its own calibration input.  The
document `"require a\n\nmax b 10"` yields rule ids `"r1"` and `"r3"` — the
string `"r"` followed by the line number — not the bare line numbers `1`
and `3`. -/
theorem c4_counterexample :
    ((dcl_parse "require a\n\nmax b 10" none "t").rules.map (fun r => r.id) = ["r1", "r3"]) ∧
    ((dcl_parse "require a\n\nmax b 10" none "t").rules.map (fun r => r.id)
        ≠ [toString 1, toString 3]) :=
  ⟨by decide, by decide⟩

/-- C4 amended: the id of each produced rule is `"r"` followed by the 1-based
source line number of the line that produced it; skipped lines are not
renumbered, so ids are not necessarily contiguous — the document
`"require a\n\nmax b 10"` yields rule ids `"r1"` and `"r3"`. -/
theorem c4_rule_id_line_number :
    (∀ line idx r, parse_rule_line line idx = some r → r.id = "r" ++ toString idx) ∧
    ((dcl_parse "require a\n\nmax b 10" none "t").rules.map (fun r => r.id)
        = ["r" ++ toString 1, "r" ++ toString 3]) := by
  refine ⟨?_, by decide⟩
  intro line idx r h
  simp only [parse_rule_line] at h
  repeat' split at h
  all_goals first
    | (exact Option.noConfusion h)
    | (injection h with h2; subst h2; rfl)

/-- C4 witness: the amended statement applied at line `"require a"` with
line number 7. -/
theorem c4_rule_id_line_number_witness :
    ∃ r, parse_rule_line "require a" 7 = some r ∧ r.id = "r" ++ toString 7 :=
  ⟨{ id := "r7", type := "required", field := "a" }, by decide,
   c4_rule_id_line_number.1 "require a" 7
     { id := "r7", type := "required", field := "a" } (by decide)⟩

/-- C5: `auto_cast` is a total function and follows the fixed precedence
boolean → integer → float → quoted-string unwrap → raw string: the five examples
of the claim, plus probes pinning the order (case-insensitive booleans
before numbers, integers before floats, quote unwrapping only after the
numeric parses fail, whitespace stripped first, garbage falling back to the
raw string). -/
theorem c5_auto_cast :
    auto_cast "true" = .bool true ∧
    auto_cast "42" = .int 42 ∧
    auto_cast "3.5" = .float (.finite (mkRat 7 2)) ∧
    auto_cast "\x27hi\x27" = .str "hi" ∧
    auto_cast "hi" = .str "hi" ∧
    auto_cast "TRUE" = .bool true ∧
    auto_cast "  42  " = .int 42 ∧
    auto_cast "7.0" = .float (.finite (mkRat 7 1)) ∧
    auto_cast "\x221.5\x22" = .str "1.5" ∧
    auto_cast "" = .str "" := by
  refine ⟨by decide, by decide, by decide, by decide, by decide,
          by decide, by decide, by decide, by decide, by decide⟩

/-- C6: `dcl_parse` is a total function into schemas — every document
yields exactly the rules recovered line by line by `parse_rule_line` with
1-based line numbers, so malformed or unrecognized lines simply contribute
no rule; a garbage document yields a schema with zero rules, and the
original document is preserved as `source_text`. -/
theorem c6_parse_total :
    (∀ doc title now, (dcl_parse doc title now).rules
        = (enumFrom 1 (splitlines doc)).filterMap (fun p => parse_rule_line p.2 p.1)) ∧
    ((dcl_parse "garbage !!\nfoo\n# comment\nxyzzy plugh 1" none "t").rules = []) ∧
    (∀ doc title now, (dcl_parse doc title now).source_text = doc) :=
  ⟨fun doc title now => by simp [dcl_parse, dclParseLoop_eq], by decide,
   fun _ _ _ => rfl⟩

/-- C7: a `max` rule passes exactly when both `data[field]` and the rule
value convert to floats with the former `<=` the latter, and a `min` rule
symmetrically with `>=`; when either side fails to convert the rule yields
`passed = false` (a result record, not an error) — concretely, a missing
field and a non-numeric string both fail. -/
theorem c7_minmax_numeric :
    (∀ i f v data,
        ((evalRule data { id := i, type := "max", field := f, value := v }).passed = true
          ↔ ∃ a b, pyFloatOfVal ((data.lookup f).getD .null) = some a
              ∧ pyFloatOfVal v = some b ∧ pyFloatLe a b = true)) ∧
    (∀ i f v data,
        ((evalRule data { id := i, type := "min", field := f, value := v }).passed = true
          ↔ ∃ a b, pyFloatOfVal ((data.lookup f).getD .null) = some a
              ∧ pyFloatOfVal v = some b ∧ pyFloatLe b a = true)) ∧
    ((evalRule [] { id := "r1", type := "max", field := "x", value := .int 50 }).passed = false) ∧
    ((evalRule [("x", .str "abc")]
        { id := "r1", type := "max", field := "x", value := .int 50 }).passed = false) ∧
    ((evalRule [("x", .str "42")]
        { id := "r1", type := "max", field := "x", value := .int 50 }).passed = true) := by
  refine ⟨?_, ?_, by decide, by decide, by decide⟩
  · intro i f v data
    rw [evalRule_max]
    cases h1 : pyFloatOfVal ((data.lookup f).getD .null) with
    | none => simp [h1]
    | some a =>
        cases h2 : pyFloatOfVal v with
        | none => simp [h1, h2]
        | some b => simp [h1, h2]
  · intro i f v data
    rw [evalRule_min]
    cases h1 : pyFloatOfVal ((data.lookup f).getD .null) with
    | none => simp [h1]
    | some a =>
        cases h2 : pyFloatOfVal v with
        | none => simp [h1, h2]
        | some b => simp [h1, h2]

/-- C7 witness: the max characterization applied at the concrete record
`x = "42"` against the rule value `50`. -/
theorem c7_minmax_numeric_witness :
    ∃ a b, pyFloatOfVal (((([("x", Val.str "42")] : DataRec).lookup "x").getD .null)) = some a
        ∧ pyFloatOfVal (.int 50) = some b ∧ pyFloatLe a b = true :=
  (c7_minmax_numeric.1 "r1" "x" (.int 50) [("x", .str "42")]).mp (by decide)

/-- The first end-to-end calibration schema of the spec. -/
def e2eSchema : DCLSchema :=
  dcl_parse "require manufacturer\nmax weight 50\nin category [electronics, furniture]" none "t"

/-- The first end-to-end calibration data record of the spec. -/
def e2eData : DataRec :=
  [("manufacturer", .str "ACME"), ("weight", .int 42), ("category", .str "electronics")]

/-- C8: `evaluate` returns exactly one result per rule, in schema order (it
is the pointwise map of `evalRule` over the rule list), and the overall
verdict is the conjunction of the individual `passed` flags; being a pure
function of (schema, data) it is deterministic.  The end-to-end scenario
of the spec comes out with three passing results and overall `true`. -/
theorem c8_evaluate_order_and :
    (∀ schema data, evaluate schema data
        = (schema.rules.map (evalRule data),
           (schema.rules.map (evalRule data)).all (fun r => r.passed))) ∧
    ((evaluate e2eSchema e2eData).1.map (fun r => r.passed) = [true, true, true]) ∧
    ((evaluate e2eSchema e2eData).2 = true) := by
  refine ⟨?_, by decide, by decide⟩
  intro schema data
  rw [evaluate, evaluateLoop_eq]
  simp

/-- C9: a schema with an empty rule list — as compiled from comment-only or
garbage rule text — evaluates any data record to the empty result sequence
with overall verdict `true`. -/
theorem c9_empty_schema_compliant :
    (∀ t src gen data,
        evaluate { law_title := t, rules := [], source_text := src, generated_at := gen } data
          = ([], true)) ∧
    (∀ data, evaluate (dcl_parse "# comment only\n\nnonsense" none "x") data = ([], true)) :=
  ⟨fun _ _ _ _ => rfl, fun _ => rfl⟩

/-- C10: a `required` rule passes exactly when the field is present with a
value other than `None` and the empty string; in particular the falsy
values int `0` and bool `False` satisfy it, while `None` and `""` do not. -/
theorem c10_required_accepts_falsy :
    (∀ i f v data,
        ((evalRule data { id := i, type := "required", field := f, value := v }).passed = true
          ↔ ∃ w, data.lookup f = some w ∧ w ≠ .null ∧ w ≠ .str "")) ∧
    ((evalRule [("x", .int 0)] { id := "r0", type := "required", field := "x" }).passed = true) ∧
    ((evalRule [("x", .bool false)] { id := "r0", type := "required", field := "x" }).passed = true) ∧
    ((evalRule [("x", .null)] { id := "r0", type := "required", field := "x" }).passed = false) ∧
    ((evalRule [("x", .str "")] { id := "r0", type := "required", field := "x" }).passed = false) := by
  refine ⟨?_, by decide, by decide, by decide, by decide⟩
  intro i f v data
  rw [evalRule_required]
  cases h : data.lookup f with
  | none => simp [h]
  | some w =>
      simp only [h, Option.some.injEq, Bool.and_eq_true, Bool.not_eq_true]
      constructor
      · rintro ⟨h1, h2⟩
        exact ⟨w, rfl, fun hw => by subst hw; simp [pyEq] at h1,
               fun hw => by subst hw; simp [pyEq] at h2⟩
      · rintro ⟨w2, hw2, hn, he⟩
        cases hw2
        constructor
        · cases hq : pyEq w .null
          · rfl
          · exact absurd ((pyEq_null_iff w).1 hq) hn
        · cases hq : pyEq w (.str "")
          · rfl
          · exact absurd ((pyEq_emptyStr_iff w).1 hq) he

/-- C10 witness: the required characterization applied at the concrete
record `x = 0`. -/
theorem c10_required_accepts_falsy_witness :
    ∃ w, (([("x", Val.int 0)] : DataRec).lookup "x") = some w ∧ w ≠ .null ∧ w ≠ .str "" :=
  (c10_required_accepts_falsy.1 "r0" "x" .null [("x", .int 0)]).mp (by decide)

end LawToCode
